import Mathlib

/-!
Shallow embedding of the amail message store (src/internal/db/db.go), the
CLI prefix-resolution helper (src/internal/cli/read.go), the CLI reply
construction (src/internal/cli/output.go) and the TUI reply/compose path
(src/internal/tui/tui.go).

The SQLite database is modelled as a `Store`: a list of message rows and a
list of recipient rows.  Timestamps are natural numbers.  SQL statements are
modelled by their relational semantics: INSERT appends a row after checking
the PRIMARY KEY and FOREIGN KEY constraints (the connection is opened with
foreign_keys(1)), UPDATE maps over the rows touching exactly the matching
ones, DELETE filters rows out, and ORDER BY is an insertion sort on the
ordering key.  A transaction either commits (the new store) or rolls back
(the caller keeps the old store), which `sendMessageRun` makes explicit.
-/

/-- A row of the `messages` table (struct `Message`, db.go). -/
structure Message where
  id : String
  fromID : String
  subject : String
  body : String
  priority : String
  msgType : String
  threadID : Option String
  replyToID : Option String
  createdAt : Nat
  deriving DecidableEq

/-- A row of the `recipients` table (struct `Recipient`, db.go). -/
structure Recipient where
  messageID : String
  toID : String
  status : String
  readAt : Option Nat
  notifiedAt : Option Nat
  deriving DecidableEq

/-- The database state: the two tables. -/
structure Store where
  messages : List Message
  recipients : List Recipient
  deriving DecidableEq

def Store.empty : Store := ⟨[], []⟩

/-- A result row of the inbox/thread queries (struct `InboxMessage`, db.go):
the joined message columns plus the recipient-specific `status`/`read_at`
columns and the attached full recipient list `ToIDs`. -/
structure InboxRow where
  msg : Message
  toIDs : List String
  status : String
  readAt : Option Nat
  deriving DecidableEq

/-- Errors surfaced by `SendMessage` (db.go): failure of `db.conn.Begin()`,
or a SQLite constraint violation on one of the inserts (PRIMARY KEY or
FOREIGN KEY, with foreign_keys(1) active). -/
inductive SendError where
  | beginFailed : SendError
  | messageExists (id : String) : SendError
  | messageFk (id : String) : SendError
  | recipientExists (mid toID : String) : SendError
  | recipientFk (mid toID : String) : SendError
  deriving DecidableEq

def msgIds (s : Store) : List String := s.messages.map (·.id)

/-- FOREIGN KEY check for a nullable reference column. -/
def fkOk (ids : List String) : Option String → Prop
  | none => True
  | some t => t ∈ ids

instance (ids : List String) (o : Option String) : Decidable (fkOk ids o) := by
  cases o <;> simp [fkOk] <;> infer_instance

/-- The message INSERT inside `SendMessage` (db.go:183-190): fails on a
duplicate PRIMARY KEY `id` or on a thread_id/reply_to_id FOREIGN KEY
violation (SQLite checks the FK after the row is in place, so the inserted
row's own id is in scope). -/
def insertMessage (s : Store) (m : Message) : Except SendError Store :=
  if ∃ mm ∈ s.messages, mm.id = m.id then .error (.messageExists m.id)
  else if ¬ fkOk (m.id :: msgIds s) m.threadID then .error (.messageFk m.id)
  else if ¬ fkOk (m.id :: msgIds s) m.replyToID then .error (.messageFk m.id)
  else .ok { s with messages := s.messages ++ [m] }

/-- The recipient row created by `SendMessage` (db.go:194-197): status
'unread', read_at and notified_at NULL. -/
def mkUnread (mid toID : String) : Recipient :=
  { messageID := mid, toID := toID, status := "unread", readAt := none, notifiedAt := none }

/-- One recipient INSERT inside `SendMessage` (db.go:193-200): fails on a
duplicate composite PRIMARY KEY (message_id, to_id) or a message_id FOREIGN
KEY violation. -/
def insertRecipient (s : Store) (mid toID : String) : Except SendError Store :=
  if ∃ r ∈ s.recipients, r.messageID = mid ∧ r.toID = toID then .error (.recipientExists mid toID)
  else if ¬ (∃ mm ∈ s.messages, mm.id = mid) then .error (.recipientFk mid toID)
  else .ok { s with recipients := s.recipients ++ [mkUnread mid toID] }

/-- The recipient-insert loop of `SendMessage` (db.go:193-200). -/
def insertRecipients (s : Store) (mid : String) : List String → Except SendError Store
  | [] => .ok s
  | t :: ts => do
    let s1 ← insertRecipient s mid t
    insertRecipients s1 mid ts

/-- The body of the `SendMessage` transaction (db.go:175-207): message
insert, then one recipient insert per destination. -/
def sendMessage (s : Store) (m : Message) (recips : List String) : Except SendError Store := do
  let s1 ← insertMessage s m
  insertRecipients s1 m.id recips

/-- `SendMessage` as a state transformer, with the transaction semantics
explicit: if `Begin()` fails or any insert fails, the deferred
`tx.Rollback()` discards every buffered write and the store is unchanged;
on `Commit()` the buffered writes become the new store. -/
def sendMessageRun (beginOk : Bool) (s : Store) (m : Message) (recips : List String) :
    Store × Option SendError :=
  if beginOk then
    match sendMessage s m recips with
    | .ok s1 => (s1, none)
    | .error e => (s, some e)
  else (s, some .beginFailed)

/-- `MarkRead` (db.go:421-430): UPDATE recipients SET status='read',
read_at=now WHERE message_id=? AND to_id=?.  An UPDATE that matches zero
rows is not an error, so the operation is total. -/
def markRead (s : Store) (mid toID : String) (now : Nat) : Store :=
  { s with recipients := s.recipients.map (fun r =>
      if r.messageID = mid ∧ r.toID = toID then
        { r with status := "read", readAt := some now } else r) }

/-- `MarkAllRead` (db.go:473-482): UPDATE ... WHERE to_id=? AND
status='unread', returning the number of affected rows. -/
def markAllRead (s : Store) (toID : String) (now : Nat) : Store × Nat :=
  ({ s with recipients := s.recipients.map (fun r =>
      if r.toID = toID ∧ r.status = "unread" then
        { r with status := "read", readAt := some now } else r) },
   (s.recipients.filter (fun r => decide (r.toID = toID ∧ r.status = "unread"))).length)

/-- `Archive` (db.go:485-494): UPDATE recipients SET status='archived'
WHERE message_id=? AND to_id=?. -/
def archive (s : Store) (mid toID : String) : Store :=
  { s with recipients := s.recipients.map (fun r =>
      if r.messageID = mid ∧ r.toID = toID then { r with status := "archived" } else r) }

/-- `MarkNotified` (db.go:461-470): UPDATE recipients SET notified_at=now
WHERE message_id=? AND to_id=?. -/
def markNotified (s : Store) (mid toID : String) (now : Nat) : Store :=
  { s with recipients := s.recipients.map (fun r =>
      if r.messageID = mid ∧ r.toID = toID then { r with notifiedAt := some now } else r) }

/-- `Delete` (db.go:497-505): DELETE FROM recipients WHERE message_id=?
AND to_id=?.  Only recipient rows are touched; the messages table is not. -/
def delete (s : Store) (mid toID : String) : Store :=
  { s with recipients := s.recipients.filter (fun r =>
      decide (¬ (r.messageID = mid ∧ r.toID = toID))) }

/-- `CountUnread` (db.go:508-517): SELECT COUNT(*) FROM recipients WHERE
to_id=? AND status='unread'. -/
def countUnread (s : Store) (toID : String) : Nat :=
  (s.recipients.filter (fun r => decide (r.toID = toID ∧ r.status = "unread"))).length

/-- `getMessageRecipients` / `getRecipientsForMessages` (db.go): the to_id
column of every recipient row of one message, in table order. -/
def recipientsOf (s : Store) (mid : String) : List String :=
  (s.recipients.filter (fun r => decide (r.messageID = mid))).map (·.toID)

/-- Ordering used by `GetInbox` and `GetUnnotified`: ORDER BY m.created_at
DESC. -/
def rowLeDesc (a b : InboxRow) : Prop := b.msg.createdAt ≤ a.msg.createdAt

instance : DecidableRel rowLeDesc := fun a b => Nat.decLe b.msg.createdAt a.msg.createdAt

/-- Ordering used by `GetThread`: ORDER BY m.created_at ASC. -/
def msgLeAsc (a b : Message) : Prop := a.createdAt ≤ b.createdAt

instance : DecidableRel msgLeAsc := fun a b => Nat.decLe a.createdAt b.createdAt

/-- The join in `GetInbox` (db.go:211-218): FROM messages m JOIN recipients
r ON m.id = r.message_id WHERE r.to_id = ? [AND r.status = 'unread' when
includeRead is false]. -/
def joinInbox (s : Store) (toID : String) (includeRead : Bool) : List InboxRow :=
  s.messages.flatMap (fun m =>
    (s.recipients.filter (fun r =>
        decide (r.messageID = m.id ∧ r.toID = toID ∧
          (includeRead = true ∨ r.status = "unread")))).map
      (fun r => { msg := m, toIDs := [], status := r.status, readAt := r.readAt }))

/-- `GetInbox` (db.go:210-240): the join, ordered by created_at descending,
then `attachRecipients` fills in ToIDs for each returned message. -/
def getInbox (s : Store) (toID : String) (includeRead : Bool) : List InboxRow :=
  (List.insertionSort rowLeDesc (joinInbox s toID includeRead)).map
    (fun row => { row with toIDs := recipientsOf s row.msg.id })

/-- `GetThread` (db.go:520-545): WHERE m.id = ? OR m.thread_id = ? ORDER BY
m.created_at ASC; scanned without status columns (Status stays the zero
value ""), then recipients attached. -/
def getThread (s : Store) (root : String) : List InboxRow :=
  (List.insertionSort msgLeAsc (s.messages.filter (fun m =>
      decide (m.id = root ∨ m.threadID = some root)))).map
    (fun m => { msg := m, toIDs := recipientsOf s m.id, status := "", readAt := none })

/-- Error returned by the CLI helper `findMessageByPrefix` (read.go:117):
"ambiguous ID prefix: %s matches %d messages". -/
inductive FindError where
  | ambiguous (pfx : String) (count : Nat) : FindError
  deriving DecidableEq

/-- `strings.HasPrefix`, modelled on the character list of the string. -/
def strHasPrefix (s pre : String) : Bool := decide (s.data.take pre.length = pre.data)

/-- `findMessageByPrefix` (read.go:99-122): scan the recipient's own inbox
(GetInbox with includeRead=true), keep the messages whose id starts with
the typed prefix; zero matches is an absent result, one match resolves,
more than one is the ambiguity error carrying the prefix and the count. -/
def findMessageByPrefix (s : Store) (pfx toID : String) : Except FindError (Option InboxRow) :=
  match (getInbox s toID true).filter (fun row => strHasPrefix row.msg.id pfx) with
  | [] => .ok none
  | [m] => .ok (some m)
  | ms => .error (.ambiguous pfx ms.length)

/-- `filterOut` (output.go): drop every occurrence of one value. -/
def filterOut (l : List String) (x : String) : List String :=
  l.filter (fun v => decide (v ≠ x))

/-- `dedupe` (output.go): keep the first occurrence of each value, tracked
by the `seen` set. -/
def dedupeAux (seen : List String) : List String → List String
  | [] => []
  | x :: xs => if x ∈ seen then dedupeAux seen xs else x :: dedupeAux (x :: seen) xs

def dedupe (l : List String) : List String := dedupeAux [] l

/-- Thread-root computation of the CLI reply (output.go:174-182): reuse the
original message's thread_id when present, else the original's own id. -/
def replyThreadID (orig : Message) : String :=
  match orig.threadID with
  | some t => t
  | none => orig.id

/-- Reply-subject computation of the CLI reply (output.go:184-188). -/
def replySubject (subject : String) : String :=
  if strHasPrefix subject.toLower "re:" then subject else "RE: " ++ subject

/-- Recipient computation of `amail reply --all` (output.go:154-161):
original sender plus all original recipients, minus self, deduplicated. -/
def cliReplyAllRecipients (origFrom : String) (origTo : List String) (self : String) :
    List String :=
  dedupe (filterOut (origFrom :: origTo) self)

/-- The reply Message built by the CLI (output.go:190-202): thread_id is
the computed thread root, reply_to_id the replied-to message. -/
def cliReplyMessage (orig : Message) (fromID newID body priority msgType : String)
    (now : Nat) : Message :=
  { id := newID, fromID := fromID, subject := replySubject orig.subject, body := body,
    priority := priority, msgType := msgType, threadID := some (replyThreadID orig),
    replyToID := some orig.id, createdAt := now }

/-- Recipient computation of the TUI reply-all key (tui.go:345-359):
original sender, then the original recipients with self filtered out (no
dedupe on this path). -/
def tuiReplyAllRecipients (origFrom : String) (origTo : List String) (identity : String) :
    List String :=
  origFrom :: origTo.filter (fun t => decide (t ≠ identity))

/-- The Message built by the TUI compose/send path (tui.go:629-652): every
send from the TUI — including one initiated by the reply or reply-all keys,
which only pre-fill the To and Subject fields — carries priority "normal",
type "message" and no thread_id/reply_to_id. -/
def tuiComposeMessage (identity newID subject body : String) (now : Nat) : Message :=
  { id := newID, fromID := identity, subject := subject, body := body,
    priority := "normal", msgType := "message", threadID := none, replyToID := none,
    createdAt := now }

/-- One store operation, for reasoning about operation sequences. -/
inductive Op where
  | send (beginOk : Bool) (m : Message) (recips : List String) : Op
  | opMarkRead (mid toID : String) (now : Nat) : Op
  | opMarkAllRead (toID : String) (now : Nat) : Op
  | opArchive (mid toID : String) : Op
  | opDelete (mid toID : String) : Op

def applyOp (s : Store) : Op → Store
  | .send beginOk m recips => (sendMessageRun beginOk s m recips).1
  | .opMarkRead mid toID now => markRead s mid toID now
  | .opMarkAllRead toID now => (markAllRead s toID now).1
  | .opArchive mid toID => archive s mid toID
  | .opDelete mid toID => delete s mid toID

def applyOps (s : Store) (ops : List Op) : Store := ops.foldl applyOp s

instance : IsTotal InboxRow rowLeDesc :=
  ⟨fun a b => Nat.le_total b.msg.createdAt a.msg.createdAt⟩

instance : IsTrans InboxRow rowLeDesc :=
  ⟨fun _ _ _ hab hbc => Nat.le_trans hbc hab⟩

instance : IsTotal Message msgLeAsc :=
  ⟨fun a b => Nat.le_total a.createdAt b.createdAt⟩

instance : IsTrans Message msgLeAsc :=
  ⟨fun _ _ _ hab hbc => Nat.le_trans hab hbc⟩

theorem list_map_noop {α : Type} (f : α → α) :
    ∀ l : List α, (∀ a ∈ l, f a = a) → l.map f = l
  | [], _ => rfl
  | a :: l, h => by
    rw [List.map_cons, h a (List.mem_cons_self a l),
      list_map_noop f l (fun b hb => h b (List.mem_cons_of_mem a hb))]

/-- Membership in the inbox join, unfolded to the two tables. -/
theorem mem_joinInbox {s : Store} {toID : String} {incl : Bool} {row : InboxRow} :
    row ∈ joinInbox s toID incl ↔
      ∃ m ∈ s.messages, ∃ r ∈ s.recipients,
        (r.messageID = m.id ∧ r.toID = toID ∧ (incl = true ∨ r.status = "unread")) ∧
        row = { msg := m, toIDs := [], status := r.status, readAt := r.readAt } := by
  simp only [joinInbox, List.mem_flatMap, List.mem_map, List.mem_filter, decide_eq_true_eq]
  constructor
  · rintro ⟨m, hm, r, ⟨hr, hp⟩, hrow⟩
    exact ⟨m, hm, r, hr, hp, hrow.symm⟩
  · rintro ⟨m, hm, r, hr, hp, hrow⟩
    exact ⟨m, hm, r, ⟨hr, hp⟩, hrow.symm⟩

/-- The messages appearing in `GetInbox` are exactly the recipient-joined
ones. -/
theorem mem_getInbox_iff (s : Store) (toID : String) (incl : Bool) (m : Message) :
    (∃ row ∈ getInbox s toID incl, row.msg = m) ↔
      (m ∈ s.messages ∧ ∃ r ∈ s.recipients,
        r.messageID = m.id ∧ r.toID = toID ∧ (incl = true ∨ r.status = "unread")) := by
  constructor
  · rintro ⟨row, hrow, hmsg⟩
    simp only [getInbox, List.mem_map, List.mem_insertionSort] at hrow
    obtain ⟨row0, h0, hatt⟩ := hrow
    obtain ⟨m0, hm0, r, hr, hp, hrow0⟩ := mem_joinInbox.mp h0
    have hmsg0 : row0.msg = m := by rw [← hatt] at hmsg; exact hmsg
    have hm0m : m0 = m := by rw [hrow0] at hmsg0; exact hmsg0
    subst hm0m
    exact ⟨hm0, r, hr, hp⟩
  · rintro ⟨hm, r, hr, hp⟩
    refine ⟨{ msg := m, toIDs := recipientsOf s m.id, status := r.status, readAt := r.readAt },
      ?_, rfl⟩
    simp only [getInbox, List.mem_map, List.mem_insertionSort]
    exact ⟨{ msg := m, toIDs := [], status := r.status, readAt := r.readAt },
      mem_joinInbox.mpr ⟨m, hm, r, hr, hp, rfl⟩, rfl⟩

/-- `GetInbox` output is sorted by created_at descending. -/
theorem getInbox_pairwise (s : Store) (toID : String) (incl : Bool) :
    (getInbox s toID incl).Pairwise rowLeDesc := by
  have hs : (List.insertionSort rowLeDesc (joinInbox s toID incl)).Pairwise rowLeDesc :=
    List.sorted_insertionSort rowLeDesc (joinInbox s toID incl)
  exact hs.map _ (fun a b h => h)

/-- The messages appearing in `GetThread` are exactly the root and the
messages pointing at it. -/
theorem mem_getThread_iff (s : Store) (root : String) (m : Message) :
    (∃ row ∈ getThread s root, row.msg = m) ↔
      (m ∈ s.messages ∧ (m.id = root ∨ m.threadID = some root)) := by
  simp only [getThread, List.mem_map, List.mem_insertionSort, List.mem_filter,
    decide_eq_true_eq]
  constructor
  · rintro ⟨row, ⟨m0, ⟨hm0, hp⟩, hrow⟩, hmsg⟩
    have : m0 = m := by rw [← hrow] at hmsg; exact hmsg
    subst this
    exact ⟨hm0, hp⟩
  · rintro ⟨hm, hp⟩
    exact ⟨{ msg := m, toIDs := recipientsOf s m.id, status := "", readAt := none },
      ⟨m, ⟨hm, hp⟩, rfl⟩, rfl⟩

/-- `GetThread` output is sorted by created_at ascending. -/
theorem getThread_pairwise (s : Store) (root : String) :
    (getThread s root).Pairwise (fun a b => a.msg.createdAt ≤ b.msg.createdAt) := by
  have hs := List.sorted_insertionSort msgLeAsc
    (s.messages.filter (fun m => decide (m.id = root ∨ m.threadID = some root)))
  exact hs.map _ (fun a b h => h)

/-- Successful runs of the recipient-insert loop append exactly one 'unread'
row per destination, in order. -/
theorem insertRecipients_ok (mid : String) :
    ∀ (ts : List String) (s s' : Store), insertRecipients s mid ts = .ok s' →
      s'.messages = s.messages ∧ s'.recipients = s.recipients ++ ts.map (mkUnread mid)
  | [], s, s', h => by
    simp only [insertRecipients] at h
    cases h
    simp
  | t :: ts, s, s', h => by
    simp only [insertRecipients, insertRecipient] at h
    by_cases h1 : ∃ r ∈ s.recipients, r.messageID = mid ∧ r.toID = t
    · rw [if_pos h1] at h; cases h
    · rw [if_neg h1] at h
      by_cases h2 : ∃ mm ∈ s.messages, mm.id = mid
      · rw [if_neg (not_not_intro h2)] at h
        have ih := insertRecipients_ok mid ts _ s' h
        simpa [List.append_assoc] using ih
      · rw [if_pos h2] at h; cases h

/-- The recipient-insert loop succeeds when the message row exists, no
destination collides with an existing recipient row, and the destinations
are pairwise distinct; the result appends one row per destination. -/
theorem insertRecipients_eq_ok (mid : String) :
    ∀ (ts : List String) (s : Store),
      (∃ mm ∈ s.messages, mm.id = mid) →
      (∀ t ∈ ts, ¬ ∃ r ∈ s.recipients, r.messageID = mid ∧ r.toID = t) →
      ts.Nodup →
      insertRecipients s mid ts = .ok ⟨s.messages, s.recipients ++ ts.map (mkUnread mid)⟩
  | [], s, _, _, _ => by simp [insertRecipients]
  | t :: ts, s, hmsg, hfree, hnd => by
    have h1 : ¬ ∃ r ∈ s.recipients, r.messageID = mid ∧ r.toID = t :=
      hfree t (List.mem_cons_self t ts)
    have hstep : insertRecipient s mid t = .ok ⟨s.messages, s.recipients ++ [mkUnread mid t]⟩ := by
      simp only [insertRecipient, if_neg h1, if_neg (not_not_intro hmsg)]
    have hnd' := List.nodup_cons.mp hnd
    have hrec := insertRecipients_eq_ok mid ts
      ⟨s.messages, s.recipients ++ [mkUnread mid t]⟩
      (by simpa using hmsg)
      (by
        intro t' ht'
        rintro ⟨r, hr, hrm, hrt⟩
        rcases List.mem_append.mp hr with hin | hin
        · exact hfree t' (List.mem_cons_of_mem t ht') ⟨r, hin, hrm, hrt⟩
        · have heq : r = mkUnread mid t := List.mem_singleton.mp hin
          rw [heq] at hrt
          simp only [mkUnread] at hrt
          subst hrt
          exact hnd'.1 ht')
      hnd'.2
    have hbind : insertRecipients s mid (t :: ts) =
        insertRecipients ⟨s.messages, s.recipients ++ [mkUnread mid t]⟩ mid ts := by
      simp only [insertRecipients, hstep]
      rfl
    rw [hbind, hrec]
    simp [List.append_assoc]

theorem list_flatMap_congr {α β : Type} (f g : α → List β) :
    ∀ l : List α, (∀ a ∈ l, f a = g a) → l.flatMap f = l.flatMap g
  | [], _ => rfl
  | a :: l, h => by
    rw [List.flatMap_cons, List.flatMap_cons, h a (List.mem_cons_self a l),
      list_flatMap_congr f g l (fun b hb => h b (List.mem_cons_of_mem a hb))]

/-- A successful `MarkRead` leaves the targeted row present with status
'read' and read_at set to the supplied time. -/
theorem markRead_sets_read (s : Store) (mid toID : String) (t : Nat)
    (hex : ∃ r ∈ s.recipients, r.messageID = mid ∧ r.toID = toID) :
    ∃ r ∈ (markRead s mid toID t).recipients,
      r.messageID = mid ∧ r.toID = toID ∧ r.status = "read" ∧ r.readAt = some t := by
  obtain ⟨r, hr, h1, h2⟩ := hex
  refine ⟨{ r with status := "read", readAt := some t }, ?_, h1, h2, rfl, rfl⟩
  simp only [markRead, List.mem_map]
  exact ⟨r, hr, by rw [if_pos ⟨h1, h2⟩]⟩

/-- After `MarkRead`, every row matching the targeted pair has status
'read' and the supplied read_at. -/
theorem markRead_all_read (s : Store) (mid toID : String) (t : Nat) :
    ∀ r ∈ (markRead s mid toID t).recipients, r.messageID = mid → r.toID = toID →
      r.status = "read" ∧ r.readAt = some t := by
  intro r hr hm ht
  simp only [markRead, List.mem_map] at hr
  obtain ⟨r0, hr0, heq⟩ := hr
  by_cases hc : r0.messageID = mid ∧ r0.toID = toID
  · rw [if_pos hc] at heq
    rw [← heq]
    exact ⟨rfl, rfl⟩
  · rw [if_neg hc] at heq
    rw [← heq] at hm ht
    exact absurd ⟨hm, ht⟩ hc

/-- C6: `MarkRead` is idempotent by effect: with an existing recipient row
for the pair, the first call leaves the row's status 'read' with read_at
set, and a second call (modelled total, as the UPDATE never errors) again
leaves status 'read', with read_at overwritten last-write-wins. -/
theorem markRead_idempotent (s : Store) (mid toID : String) (t1 t2 : Nat)
    (hex : ∃ r ∈ s.recipients, r.messageID = mid ∧ r.toID = toID) :
    (∃ r ∈ (markRead s mid toID t1).recipients,
        r.messageID = mid ∧ r.toID = toID ∧ r.status = "read" ∧ r.readAt = some t1) ∧
    (∀ r ∈ (markRead s mid toID t1).recipients, r.messageID = mid → r.toID = toID →
        r.status = "read" ∧ r.readAt = some t1) ∧
    (∃ r ∈ (markRead (markRead s mid toID t1) mid toID t2).recipients,
        r.messageID = mid ∧ r.toID = toID ∧ r.status = "read" ∧ r.readAt = some t2) ∧
    (∀ r ∈ (markRead (markRead s mid toID t1) mid toID t2).recipients,
        r.messageID = mid → r.toID = toID → r.status = "read" ∧ r.readAt = some t2) := by
  have h1 := markRead_sets_read s mid toID t1 hex
  have hex1 : ∃ r ∈ (markRead s mid toID t1).recipients,
      r.messageID = mid ∧ r.toID = toID := by
    obtain ⟨r, hr, ha, hb, -, -⟩ := h1
    exact ⟨r, hr, ha, hb⟩
  exact ⟨h1, markRead_all_read s mid toID t1,
    markRead_sets_read _ mid toID t2 hex1, markRead_all_read _ mid toID t2⟩

def wMsg6 : Message :=
  { id := "m1", fromID := "pm", subject := "s", body := "b", priority := "normal",
    msgType := "message", threadID := none, replyToID := none, createdAt := 1 }

def wStore6 : Store := ⟨[wMsg6], [mkUnread "m1" "dev"]⟩

theorem markRead_idempotent_witness :
    (∃ r ∈ (markRead wStore6 "m1" "dev" 5).recipients,
        r.messageID = "m1" ∧ r.toID = "dev" ∧ r.status = "read" ∧ r.readAt = some 5) ∧
    (∃ r ∈ (markRead (markRead wStore6 "m1" "dev" 5) "m1" "dev" 7).recipients,
        r.messageID = "m1" ∧ r.toID = "dev" ∧ r.status = "read" ∧ r.readAt = some 7) := by
  have h := markRead_idempotent wStore6 "m1" "dev" 5 7 (by decide)
  exact ⟨h.1, h.2.2.1⟩

/-- C10: for a (messageID, toID) pair with no recipient row, each of
MarkRead, Archive, MarkNotified and Delete is an UPDATE/DELETE matching
zero rows: it returns success (the operations are total in the model, as in
SQLite) and leaves the entire store unchanged. -/
theorem statusOps_noop_when_absent (s : Store) (mid toID : String) (t1 t2 : Nat)
    (habs : ∀ r ∈ s.recipients, ¬ (r.messageID = mid ∧ r.toID = toID)) :
    markRead s mid toID t1 = s ∧ archive s mid toID = s ∧
    markNotified s mid toID t2 = s ∧ delete s mid toID = s := by
  obtain ⟨ms, rs⟩ := s
  have habs' : ∀ r ∈ rs, ¬ (r.messageID = mid ∧ r.toID = toID) := habs
  refine ⟨?_, ?_, ?_, ?_⟩
  · simp only [markRead, Store.mk.injEq, true_and]
    exact list_map_noop _ rs (fun r hr => if_neg (habs' r hr))
  · simp only [archive, Store.mk.injEq, true_and]
    exact list_map_noop _ rs (fun r hr => if_neg (habs' r hr))
  · simp only [markNotified, Store.mk.injEq, true_and]
    exact list_map_noop _ rs (fun r hr => if_neg (habs' r hr))
  · simp only [delete, Store.mk.injEq, true_and]
    refine List.filter_eq_self.mpr (fun r hr => ?_)
    simp only [decide_eq_true_eq]
    exact habs' r hr

def wStore10 : Store := ⟨[wMsg6], [mkUnread "m1" "dev"]⟩

theorem statusOps_noop_witness :
    markRead wStore10 "m2" "qa" 5 = wStore10 ∧ archive wStore10 "m2" "qa" = wStore10 ∧
    markNotified wStore10 "m2" "qa" 6 = wStore10 ∧ delete wStore10 "m2" "qa" = wStore10 :=
  statusOps_noop_when_absent wStore10 "m2" "qa" 5 6 (by decide)

/-- C5: `Delete(mid, a)` removes exactly the (mid, a) recipient rows: the
messages table is untouched, every other recipient's rows are unchanged,
and recipient b's inbox view (message, status, read_at per row) is
identical before and after. -/
theorem delete_isolation (s : Store) (mid a b : String) (hab : b ≠ a) :
    (delete s mid a).messages = s.messages ∧
    (∀ r ∈ (delete s mid a).recipients, ¬ (r.messageID = mid ∧ r.toID = a)) ∧
    (delete s mid a).recipients.filter (fun r => decide (r.toID = b)) =
      s.recipients.filter (fun r => decide (r.toID = b)) ∧
    (∀ incl, (getInbox (delete s mid a) b incl).map (fun row => (row.msg, row.status, row.readAt)) =
      (getInbox s b incl).map (fun row => (row.msg, row.status, row.readAt))) := by
  refine ⟨rfl, ?_, ?_, ?_⟩
  · intro r hr
    simp only [delete, List.mem_filter, decide_eq_true_eq] at hr
    exact hr.2
  · rw [delete, List.filter_filter]
    refine (List.filter_congr ?_).symm
    intro r _
    by_cases hq : r.toID = b
    · simp [hq, hab]
    · simp [hq]
  · have hjoin : ∀ incl, joinInbox (delete s mid a) b incl = joinInbox s b incl := by
      intro incl
      rw [joinInbox, joinInbox]
      refine list_flatMap_congr _ _ s.messages (fun m _ => ?_)
      rw [delete]
      rw [List.filter_filter]
      refine congrArg _ (List.filter_congr ?_)
      intro r _
      by_cases hq : r.toID = b
      · simp [hq, hab]
      · simp [hq]
    intro incl
    simp only [getInbox, hjoin, List.map_map]
    rfl

def wMsg5 : Message :=
  { id := "m1", fromID := "pm", subject := "s", body := "b", priority := "normal",
    msgType := "message", threadID := none, replyToID := none, createdAt := 3 }

def wStore5 : Store := ⟨[wMsg5], [mkUnread "m1" "dev", mkUnread "m1" "qa"]⟩

theorem delete_isolation_witness :
    (delete wStore5 "m1" "dev").messages = wStore5.messages ∧
    (delete wStore5 "m1" "dev").recipients.filter (fun r => decide (r.toID = "qa")) =
      wStore5.recipients.filter (fun r => decide (r.toID = "qa")) ∧
    (getInbox (delete wStore5 "m1" "dev") "qa" false).map
        (fun row => (row.msg, row.status, row.readAt)) =
      (getInbox wStore5 "qa" false).map (fun row => (row.msg, row.status, row.readAt)) := by
  have h := delete_isolation wStore5 "m1" "dev" "qa" (by decide)
  exact ⟨h.1, h.2.2.1, h.2.2.2 false⟩

/-- C7: over any sequence of send / mark-read / mark-all-read / archive /
delete operations applied to the empty store, `CountUnread(toID)` equals
the number of recipient rows for toID whose status is exactly 'unread'. -/
theorem countUnread_consistent (ops : List Op) (toID : String) :
    countUnread (applyOps Store.empty ops) toID =
      (applyOps Store.empty ops).recipients.countP
        (fun r => decide (r.toID = toID ∧ r.status = "unread")) := by
  rw [countUnread, List.countP_eq_length_filter]

/-- C2: the inbox-scoped prefix lookup filters the recipient's own inbox
(all statuses) by id prefix; an empty match list is an absent result, a
singleton resolves to that message, and two or more matches produce the
ambiguity error carrying the prefix and the match count. -/
theorem findMessageByPrefix_cases (s : Store) (pfx toID : String) :
    ((getInbox s toID true).filter (fun row => strHasPrefix row.msg.id pfx) = [] →
        findMessageByPrefix s pfx toID = .ok none) ∧
    (∀ row, (getInbox s toID true).filter (fun row => strHasPrefix row.msg.id pfx) = [row] →
        findMessageByPrefix s pfx toID = .ok (some row) ∧ row ∈ getInbox s toID true ∧
          strHasPrefix row.msg.id pfx = true) ∧
    (2 ≤ ((getInbox s toID true).filter (fun row => strHasPrefix row.msg.id pfx)).length →
        findMessageByPrefix s pfx toID = .error (.ambiguous pfx
          ((getInbox s toID true).filter (fun row => strHasPrefix row.msg.id pfx)).length)) := by
  refine ⟨?_, ?_, ?_⟩
  · intro h
    simp only [findMessageByPrefix, h]
  · intro row h
    have hmem : row ∈ (getInbox s toID true).filter (fun row => strHasPrefix row.msg.id pfx) := by
      rw [h]
      exact List.mem_singleton_self row
    exact ⟨by simp only [findMessageByPrefix, h], (List.mem_filter.mp hmem).1,
      (List.mem_filter.mp hmem).2⟩
  · intro h2
    cases hl : (getInbox s toID true).filter (fun row => strHasPrefix row.msg.id pfx) with
    | nil => rw [hl] at h2; simp at h2
    | cons x t =>
      cases t with
      | nil => rw [hl] at h2; simp at h2
      | cons y u =>
        simp only [findMessageByPrefix, hl]

def wMsgA : Message :=
  { id := "abcdef11", fromID := "pm", subject := "s1", body := "b1", priority := "normal",
    msgType := "message", threadID := none, replyToID := none, createdAt := 1 }

def wMsgB : Message :=
  { id := "abcdef22", fromID := "pm", subject := "s2", body := "b2", priority := "normal",
    msgType := "message", threadID := none, replyToID := none, createdAt := 2 }

def wStore2 : Store := ⟨[wMsgA, wMsgB], [mkUnread "abcdef11" "dev", mkUnread "abcdef22" "dev"]⟩

theorem findMessageByPrefix_cases_witness :
    findMessageByPrefix wStore2 "abcdef" "dev" = .error (.ambiguous "abcdef" 2) := by
  have h := (findMessageByPrefix_cases wStore2 "abcdef" "dev").2.2 (by decide)
  exact h.trans rfl

/-- A successful message INSERT appends exactly the new message row. -/
theorem insertMessage_ok {s sA : Store} {m : Message} (h : insertMessage s m = .ok sA) :
    sA = ⟨s.messages ++ [m], s.recipients⟩ := by
  unfold insertMessage at h
  split_ifs at h
  cases h
  rfl

/-- C1: `SendMessage` is all-or-nothing.  For a fresh message id (no
message row and, by referential integrity, no recipient row carries it) and
a non-empty recipient list: on success the message row and one 'unread'
recipient row per destination all exist; on any error (begin failure or a
constraint violation on any insert) the rollback leaves the store exactly
as it was, where neither the message row nor any recipient row exists. -/
theorem sendMessage_atomic (beginOk : Bool) (s : Store) (m : Message) (recips : List String)
    (hfresh : ∀ mm ∈ s.messages, mm.id ≠ m.id)
    (hnorec : ∀ r ∈ s.recipients, r.messageID ≠ m.id)
    (hne : recips ≠ []) :
    (∀ s1, sendMessageRun beginOk s m recips = (s1, none) →
        m ∈ s1.messages ∧ ∀ t ∈ recips, mkUnread m.id t ∈ s1.recipients) ∧
    (∀ s1 e, sendMessageRun beginOk s m recips = (s1, some e) →
        s1 = s ∧ (∀ mm ∈ s1.messages, mm.id ≠ m.id) ∧
          (∀ r ∈ s1.recipients, r.messageID ≠ m.id)) := by
  constructor
  · intro s1 hrun
    cases beginOk with
    | false =>
      rw [sendMessageRun, if_neg (by simp)] at hrun
      exact absurd (congrArg Prod.snd hrun) (by simp)
    | true =>
      rw [sendMessageRun, if_pos rfl] at hrun
      cases hsm : sendMessage s m recips with
      | error e =>
        rw [hsm] at hrun
        exact absurd (congrArg Prod.snd hrun) (by simp)
      | ok s2 =>
        rw [hsm] at hrun
        have hs1 : s2 = s1 := congrArg Prod.fst hrun
        subst hs1
        rw [sendMessage] at hsm
        cases him : insertMessage s m with
        | error e => rw [him] at hsm; cases hsm
        | ok sA =>
          rw [him] at hsm
          have hsA := insertMessage_ok him
          subst hsA
          have hok := insertRecipients_ok m.id recips _ _ hsm
          constructor
          · rw [hok.1]
            exact List.mem_append_right _ (List.mem_singleton_self m)
          · intro t ht
            rw [hok.2]
            exact List.mem_append_right _ (List.mem_map_of_mem (mkUnread m.id) ht)
  · intro s1 e hrun
    have hs1 : s1 = s := by
      cases beginOk with
      | false =>
        rw [sendMessageRun, if_neg (by simp)] at hrun
        exact (congrArg Prod.fst hrun).symm
      | true =>
        rw [sendMessageRun, if_pos rfl] at hrun
        cases hsm : sendMessage s m recips with
        | error e2 =>
          rw [hsm] at hrun
          exact (congrArg Prod.fst hrun).symm
        | ok s2 =>
          rw [hsm] at hrun
          exact absurd (congrArg Prod.snd hrun) (by simp)
    subst hs1
    exact ⟨rfl, hfresh, hnorec⟩

def msgW1 : Message :=
  { id := "m1", fromID := "pm", subject := "hello", body := "body", priority := "normal",
    msgType := "message", threadID := none, replyToID := none, createdAt := 4 }

theorem sendMessage_atomic_witness :
    msgW1 ∈ (sendMessageRun true Store.empty msgW1 ["dev", "qa"]).1.messages ∧
    mkUnread "m1" "dev" ∈ (sendMessageRun true Store.empty msgW1 ["dev", "qa"]).1.recipients ∧
    mkUnread "m1" "qa" ∈ (sendMessageRun true Store.empty msgW1 ["dev", "qa"]).1.recipients := by
  have h := (sendMessage_atomic true Store.empty msgW1 ["dev", "qa"]
    (by simp [Store.empty]) (by simp [Store.empty]) (by simp)).1
    (sendMessageRun true Store.empty msgW1 ["dev", "qa"]).1 rfl
  exact ⟨h.1, h.2 "dev" (by simp), h.2 "qa" (by simp)⟩

def msgW9 : Message :=
  { id := "m9", fromID := "pm", subject := "s", body := "b", priority := "normal",
    msgType := "message", threadID := none, replyToID := none, createdAt := 0 }

/-- C9 counterexample: a fresh message sent to the non-empty recipient list
["dev", "dev"], in which the role "dev" appears twice, does not succeed:
the second INSERT hits the (message_id, to_id) PRIMARY KEY and the whole
transaction rolls back, leaving the store unchanged. -/
theorem sendMessage_duplicate_role_errors :
    sendMessageRun true Store.empty msgW9 ["dev", "dev"] =
      (Store.empty, some (SendError.recipientExists "m9" "dev")) := by rfl

/-- A successful run of the recipient-insert loop forces pairwise-distinct
destinations, none of which collided with a pre-existing recipient row:
any repeated or colliding destination would hit the (message_id, to_id)
PRIMARY KEY on its INSERT. -/
theorem insertRecipients_ok_free (mid : String) :
    ∀ (ts : List String) (s s1 : Store), insertRecipients s mid ts = .ok s1 →
      ts.Nodup ∧ ∀ t ∈ ts, ¬ ∃ r ∈ s.recipients, r.messageID = mid ∧ r.toID = t
  | [], _, _, _ => ⟨List.nodup_nil, by simp⟩
  | t :: ts, s, s1, h => by
    simp only [insertRecipients, insertRecipient] at h
    by_cases h1 : ∃ r ∈ s.recipients, r.messageID = mid ∧ r.toID = t
    · rw [if_pos h1] at h
      cases h
    · rw [if_neg h1] at h
      by_cases h2 : ∃ mm ∈ s.messages, mm.id = mid
      · rw [if_neg (not_not_intro h2)] at h
        have ih := insertRecipients_ok_free mid ts
          ⟨s.messages, s.recipients ++ [mkUnread mid t]⟩ s1 h
        refine ⟨List.nodup_cons.mpr ⟨?_, ih.1⟩, ?_⟩
        · intro ht
          exact ih.2 t ht ⟨mkUnread mid t,
            List.mem_append_right _ (List.mem_singleton_self _), rfl, rfl⟩
        · intro t2 ht2
          rcases List.mem_cons.mp ht2 with he | hin
          · subst he
            exact h1
          · rintro ⟨r, hr, hrm, hrt⟩
            exact ih.2 t2 hin ⟨r, List.mem_append_left _ hr, hrm, hrt⟩
      · rw [if_pos h2] at h
        cases h

/-- C9 amended: the store performs no deduplication of the recipient list,
and duplicates are not tolerated: for a fresh message (id unused by any
message or recipient row, valid thread/reply references), `SendMessage`
succeeds if and only if the destination roles are pairwise distinct.  With
distinct roles it inserts one 'unread' recipient row per list entry; with a
duplicated role the recipients PRIMARY KEY fails an INSERT and the call
returns an error, the transaction rolling back (see the counterexample for
the concrete rolled-back state). -/
theorem sendMessage_distinct_roles_succeed (s : Store) (m : Message) (recips : List String)
    (hfresh : ∀ mm ∈ s.messages, mm.id ≠ m.id)
    (hnorec : ∀ r ∈ s.recipients, r.messageID ≠ m.id)
    (hthread : fkOk (m.id :: msgIds s) m.threadID)
    (hreply : fkOk (m.id :: msgIds s) m.replyToID) :
    ((∃ s1, sendMessage s m recips = .ok s1) ↔ recips.Nodup) ∧
    (recips.Nodup → sendMessage s m recips =
      .ok ⟨s.messages ++ [m], s.recipients ++ recips.map (mkUnread m.id)⟩) ∧
    (¬ recips.Nodup → ∃ e, sendMessage s m recips = .error e) := by
  have hok : recips.Nodup → sendMessage s m recips =
      .ok ⟨s.messages ++ [m], s.recipients ++ recips.map (mkUnread m.id)⟩ := by
    intro hnd
    have hnm : ¬ ∃ mm ∈ s.messages, mm.id = m.id := by
      rintro ⟨mm, hmm, he⟩
      exact hfresh mm hmm he
    have him : insertMessage s m = .ok ⟨s.messages ++ [m], s.recipients⟩ := by
      rw [insertMessage, if_neg hnm, if_neg (not_not_intro hthread),
        if_neg (not_not_intro hreply)]
    have hrec := insertRecipients_eq_ok m.id recips ⟨s.messages ++ [m], s.recipients⟩
      ⟨m, by simp, rfl⟩
      (by
        intro t _
        rintro ⟨r, hr, hrm, -⟩
        exact hnorec r hr hrm)
      hnd
    have hbind : sendMessage s m recips =
        insertRecipients ⟨s.messages ++ [m], s.recipients⟩ m.id recips := by
      simp only [sendMessage, him]
      rfl
    rw [hbind, hrec]
  have hmp : (∃ s1, sendMessage s m recips = .ok s1) → recips.Nodup := by
    rintro ⟨s1, hs1⟩
    rw [sendMessage] at hs1
    cases him : insertMessage s m with
    | error e =>
      rw [him] at hs1
      cases hs1
    | ok sA =>
      rw [him] at hs1
      exact (insertRecipients_ok_free m.id recips sA s1 hs1).1
  refine ⟨⟨hmp, fun hnd => ⟨_, hok hnd⟩⟩, hok, ?_⟩
  intro hnd
  cases hres : sendMessage s m recips with
  | ok s1 => exact absurd (hmp ⟨s1, hres⟩) hnd
  | error e => exact ⟨e, rfl⟩

theorem sendMessage_distinct_roles_witness :
    sendMessage Store.empty msgW9 ["dev", "qa"] =
      .ok ⟨[msgW9], [mkUnread "m9" "dev", mkUnread "m9" "qa"]⟩ := by
  have h := (sendMessage_distinct_roles_succeed Store.empty msgW9 ["dev", "qa"]
    (by simp [Store.empty]) (by simp [Store.empty]) (by decide) (by decide)).2.1 (by simp)
  exact h

def origM1 : Message :=
  { id := "m1", fromID := "pm", subject := "hello", body := "body", priority := "normal",
    msgType := "message", threadID := none, replyToID := none, createdAt := 10 }

/-- C8 (divergence witness): for message m1 from "pm" to ["dev", "qa"],
replied to by "dev": the thread root that a reply must carry is "m1"
(`replyThreadID`), and the CLI reply path (output.go) does build the
message with thread_id = "m1" and recipients {"pm", "qa"}; but the TUI
reply-all path, which computes the same recipients, sends through the TUI
compose path (tui.go sendMessage), whose message carries thread_id = none,
not "m1" — the reply loses its thread. -/
theorem tui_reply_all_drops_thread :
    tuiReplyAllRecipients origM1.fromID ["dev", "qa"] "dev" = ["pm", "qa"] ∧
    cliReplyAllRecipients origM1.fromID ["dev", "qa"] "dev" = ["pm", "qa"] ∧
    replyThreadID origM1 = "m1" ∧
    (cliReplyMessage origM1 "dev" "r1" "thanks" "normal" "message" 20).threadID = some "m1" ∧
    (cliReplyMessage origM1 "dev" "r1" "thanks" "normal" "message" 20).replyToID = some "m1" ∧
    (tuiComposeMessage "dev" "r2" "RE: hello" "thanks" 20).threadID = none ∧
    (tuiComposeMessage "dev" "r2" "RE: hello" "thanks" 20).threadID ≠ some "m1" ∧
    (tuiComposeMessage "dev" "r2" "RE: hello" "thanks" 20).replyToID = none := by
  refine ⟨by decide, by decide, rfl, rfl, rfl, rfl, by decide, rfl⟩

/-- C3: `GetInbox(toID, includeRead)` returns exactly the messages with a
recipient row for toID (restricted to status 'unread' when includeRead is
false), ordered by created_at descending; archiving a message for toID
removes it from the default (includeRead=false) listing while it stays in
the includeRead=true listing. -/
theorem getInbox_spec (s : Store) (toID : String) (m : Message) (r : Recipient)
    (hm : m ∈ s.messages) (hr : r ∈ s.recipients)
    (hrm : r.messageID = m.id) (hrt : r.toID = toID) :
    (∀ (incl : Bool) (m' : Message),
        (∃ row ∈ getInbox s toID incl, row.msg = m') ↔
          (m' ∈ s.messages ∧ ∃ r' ∈ s.recipients, r'.messageID = m'.id ∧ r'.toID = toID ∧
            (incl = true ∨ r'.status = "unread"))) ∧
    (∀ incl, (getInbox s toID incl).Pairwise rowLeDesc) ∧
    (∀ row ∈ getInbox (archive s m.id toID) toID false, row.msg.id ≠ m.id) ∧
    (∃ row ∈ getInbox (archive s m.id toID) toID true, row.msg = m) := by
  refine ⟨fun incl m' => mem_getInbox_iff s toID incl m',
    fun incl => getInbox_pairwise s toID incl, ?_, ?_⟩
  · intro row hrow heq
    have hmem : ∃ row0 ∈ getInbox (archive s m.id toID) toID false, row0.msg = row.msg :=
      ⟨row, hrow, rfl⟩
    obtain ⟨-, r', hr', hrm', hrt', hst⟩ := (mem_getInbox_iff _ _ _ _).mp hmem
    have hst' : r'.status = "unread" := by
      rcases hst with h | h
      · cases h
      · exact h
    simp only [archive, List.mem_map] at hr'
    obtain ⟨r0, hr0, hupd⟩ := hr'
    by_cases hc : r0.messageID = m.id ∧ r0.toID = toID
    · rw [if_pos hc] at hupd
      rw [← hupd] at hst'
      simp at hst'
    · rw [if_neg hc] at hupd
      rw [← hupd] at hrm' hrt'
      exact hc ⟨hrm'.trans heq, hrt'⟩
  · refine (mem_getInbox_iff _ _ _ _).mpr ⟨?_, ?_⟩
    · simpa [archive] using hm
    · refine ⟨if r.messageID = m.id ∧ r.toID = toID then { r with status := "archived" } else r,
        ?_, ?_, ?_, Or.inl rfl⟩
      · simp only [archive]
        exact List.mem_map_of_mem _ hr
      · rw [if_pos ⟨hrm, hrt⟩]
        exact hrm
      · rw [if_pos ⟨hrm, hrt⟩]
        exact hrt

def wMsg3 : Message :=
  { id := "m3", fromID := "pm", subject := "s", body := "b", priority := "normal",
    msgType := "message", threadID := none, replyToID := none, createdAt := 2 }

def wStore3 : Store := ⟨[wMsg3], [mkUnread "m3" "dev"]⟩

theorem getInbox_spec_witness :
    ∃ row ∈ getInbox (archive wStore3 "m3" "dev") "dev" true, row.msg = wMsg3 :=
  (getInbox_spec wStore3 "dev" wMsg3 (mkUnread "m3" "dev")
    (by simp [wStore3]) (by simp [wStore3]) rfl rfl).2.2.2

/-- C4: `GetThread(rootID)` returns exactly the messages whose id is rootID
or whose thread_id is rootID, ordered by created_at ascending; in
particular, for a root R and replies r1, r2 at strictly increasing
timestamps, it returns [R, r1, r2] in that order whatever the insertion
order of the store's messages and whatever unrelated messages it holds. -/
theorem getThread_spec (s : Store) (R r1 r2 : Message) (others : List Message)
    (hperm : s.messages.Perm (R :: r1 :: r2 :: others))
    (h1 : r1.threadID = some R.id) (h2 : r2.threadID = some R.id)
    (ho : ∀ mo ∈ others, mo.id ≠ R.id ∧ mo.threadID ≠ some R.id)
    (hc1 : R.createdAt < r1.createdAt) (hc2 : r1.createdAt < r2.createdAt) :
    (∀ (t : Store) (root : String) (m' : Message),
        (∃ row ∈ getThread t root, row.msg = m') ↔
          (m' ∈ t.messages ∧ (m'.id = root ∨ m'.threadID = some root))) ∧
    (∀ (t : Store) (root : String),
        (getThread t root).Pairwise (fun a b => a.msg.createdAt ≤ b.msg.createdAt)) ∧
    (getThread s R.id).map (·.msg) = [R, r1, r2] := by
  refine ⟨fun t root m' => mem_getThread_iff t root m',
    fun t root => getThread_pairwise t root, ?_⟩
  have hfR : (decide (R.id = R.id ∨ R.threadID = some R.id)) = true := by simp
  have hf1 : (decide (r1.id = R.id ∨ r1.threadID = some R.id)) = true := by simp [h1]
  have hf2 : (decide (r2.id = R.id ∨ r2.threadID = some R.id)) = true := by simp [h2]
  have hnil : others.filter (fun mm => decide (mm.id = R.id ∨ mm.threadID = some R.id)) = [] := by
    refine List.filter_eq_nil_iff.mpr (fun mo hmo => ?_)
    simp [(ho mo hmo).1, (ho mo hmo).2]
  have hlist : (R :: r1 :: r2 :: others).filter
      (fun mm => decide (mm.id = R.id ∨ mm.threadID = some R.id)) = [R, r1, r2] := by
    simp only [List.filter_cons, hfR, hf1, hf2, if_true, hnil]
    simp
  have hfilter : (s.messages.filter
      (fun mm => decide (mm.id = R.id ∨ mm.threadID = some R.id))).Perm [R, r1, r2] :=
    hlist ▸ hperm.filter _
  have hsortperm : (List.insertionSort msgLeAsc
      (s.messages.filter (fun mm => decide (mm.id = R.id ∨ mm.threadID = some R.id)))).Perm
      [R, r1, r2] := (List.perm_insertionSort msgLeAsc _).trans hfilter
  have hsorted : List.Sorted msgLeAsc (List.insertionSort msgLeAsc
      (s.messages.filter (fun mm => decide (mm.id = R.id ∨ mm.threadID = some R.id)))) :=
    List.sorted_insertionSort msgLeAsc _
  have hne3 : [R, r1, r2].Pairwise (fun a b : Message => a.createdAt ≠ b.createdAt) := by
    refine List.pairwise_cons.mpr ⟨?_, List.pairwise_cons.mpr ⟨?_, List.pairwise_singleton _ _⟩⟩
    · intro b hb
      rcases List.mem_cons.mp hb with hb1 | hb2
      · subst hb1
        exact Nat.ne_of_lt hc1
      · have : b = r2 := List.mem_singleton.mp hb2
        subst this
        exact Nat.ne_of_lt (Nat.lt_trans hc1 hc2)
    · intro b hb
      have : b = r2 := List.mem_singleton.mp hb
      subst this
      exact Nat.ne_of_lt hc2
  have hneS : (List.insertionSort msgLeAsc
      (s.messages.filter (fun mm => decide (mm.id = R.id ∨ mm.threadID = some R.id)))).Pairwise
      (fun a b => a.createdAt ≠ b.createdAt) :=
    (hsortperm.pairwise_iff (fun hxy => Ne.symm hxy)).mpr hne3
  have hlt : List.Sorted (fun a b : Message => a.createdAt < b.createdAt)
      (List.insertionSort msgLeAsc
        (s.messages.filter (fun mm => decide (mm.id = R.id ∨ mm.threadID = some R.id)))) := by
    have hand := hsorted.and hneS
    exact hand.imp (fun hab => Nat.lt_of_le_of_ne hab.1 hab.2)
  have hlt3 : List.Sorted (fun a b : Message => a.createdAt < b.createdAt) [R, r1, r2] := by
    refine List.pairwise_cons.mpr ⟨?_, List.pairwise_cons.mpr ⟨?_, List.pairwise_singleton _ _⟩⟩
    · intro b hb
      rcases List.mem_cons.mp hb with hb1 | hb2
      · subst hb1
        exact hc1
      · have : b = r2 := List.mem_singleton.mp hb2
        subst this
        exact Nat.lt_trans hc1 hc2
    · intro b hb
      have : b = r2 := List.mem_singleton.mp hb
      subst this
      exact hc2
  haveI : IsAntisymm Message (fun a b => a.createdAt < b.createdAt) :=
    ⟨fun a b hab hba => absurd hba (Nat.lt_asymm hab)⟩
  have heq : List.insertionSort msgLeAsc
      (s.messages.filter (fun mm => decide (mm.id = R.id ∨ mm.threadID = some R.id))) =
      [R, r1, r2] := List.eq_of_perm_of_sorted hsortperm hlt hlt3
  have hproj : (getThread s R.id).map (·.msg) = List.insertionSort msgLeAsc
      (s.messages.filter (fun mm => decide (mm.id = R.id ∨ mm.threadID = some R.id))) := by
    rw [getThread, List.map_map]
    exact List.map_id _
  rw [hproj, heq]

def thR : Message :=
  { id := "t1", fromID := "pm", subject := "s", body := "b", priority := "normal",
    msgType := "message", threadID := none, replyToID := none, createdAt := 10 }

def thR1 : Message :=
  { id := "t2", fromID := "dev", subject := "RE: s", body := "b", priority := "normal",
    msgType := "response", threadID := some "t1", replyToID := some "t1", createdAt := 20 }

def thR2 : Message :=
  { id := "t3", fromID := "pm", subject := "RE: s", body := "b", priority := "normal",
    msgType := "response", threadID := some "t1", replyToID := some "t2", createdAt := 30 }

def thX : Message :=
  { id := "x1", fromID := "qa", subject := "u", body := "b", priority := "normal",
    msgType := "message", threadID := none, replyToID := none, createdAt := 15 }

def thStore : Store := ⟨[thR2, thX, thR, thR1], []⟩

theorem getThread_spec_witness :
    (getThread thStore "t1").map (·.msg) = [thR, thR1, thR2] := by
  have h := (getThread_spec thStore thR thR1 thR2 [thX]
    (by decide) rfl rfl (by decide) (by decide) (by decide)).2.2
  exact h
